import Mathlib

/-!
Verification development for the print3rs core: the G-code line serializer
(gcode-serializer/src/lib.rs) and the printer communication core
(print3rs-core/src/lib.rs), shallowly embedded in Lean.

Bytes are modelled as natural numbers below 256, byte buffers as `List Nat`.
The atomic i32 sequence counter is modelled as an `Int` together with explicit
32-bit two's-complement wrap-around where the code's `fetch_add` wraps.
-/

namespace Print3rs

/-- Decimal ASCII rendering of a natural number, as produced by the itoa
crate (`itoa::Buffer::format`): the usual base-10 digits, no sign. -/
def natDecimal (n : Nat) : List Nat :=
  (Nat.toDigits 10 n).map Char.toNat

/-- Decimal ASCII rendering of a signed integer, as produced by itoa:
a leading 45 (the minus sign) for negative values, then the digits. -/
def intDecimal (i : Int) : List Nat :=
  if i < 0 then 45 :: natDecimal i.natAbs else natDecimal i.toNat

/-- UTF-8 encoding of one character, as produced by `char::encode_utf8`. -/
def charUtf8 (c : Char) : List Nat :=
  let n := c.toNat
  if n < 0x80 then [n]
  else if n < 0x800 then
    [0xC0 ||| (n >>> 6), 0x80 ||| (n &&& 0x3F)]
  else if n < 0x10000 then
    [0xE0 ||| (n >>> 12), 0x80 ||| ((n >>> 6) &&& 0x3F), 0x80 ||| (n &&& 0x3F)]
  else
    [0xF0 ||| (n >>> 18), 0x80 ||| ((n >>> 12) &&& 0x3F),
      0x80 ||| ((n >>> 6) &&& 0x3F), 0x80 ||| (n &&& 0x3F)]

/-- UTF-8 bytes of a string, as produced by `str::as_bytes`. -/
def strUtf8 (s : String) : List Nat :=
  s.data.foldr (fun c acc => charUtf8 c ++ acc) []

/-- ASCII uppercasing of one character, as `char::to_ascii_uppercase`:
lowercase ASCII letters lose 32, everything else is unchanged. -/
def asciiUpper (c : Char) : Char :=
  if 97 ≤ c.toNat ∧ c.toNat ≤ 122 then Char.ofNat (c.toNat - 32) else c

mutual

/-- Command values of the serde data model, as consumed by the serializer in
gcode-serializer/src/lib.rs.  Integer widths are collapsed into `Int` (itoa
prints them all as plain decimal); a float is carried together with its
shortest round-trip decimal rendering, which is what `ryu::Buffer::format`
writes for it (e.g. the f32 `2.3` renders as the text held in `vFloat`).
`vSome`/`vNewtype` are the transparent wrappers, `vUnitStruct` covers unit
structs and unit variants (both write just the name), `vSeq` covers
sequences, tuples, tuple structs and tuple variants (all write their
elements in order with no separator and no name), `vStruct` covers structs
and struct variants, `vMap` writes each key then its value. -/
inductive GValue where
  | vBool (b : Bool)
  | vInt (n : Int)
  | vFloat (rendered : String)
  | vChar (c : Char)
  | vStr (s : String)
  | vBytes (bs : List Nat)
  | vNone
  | vUnit
  | vSome (v : GValue)
  | vNewtype (v : GValue)
  | vUnitStruct (name : String)
  | vSeq (vs : GValueList)
  | vStruct (name : String) (fields : GFieldList)
  | vMap (ps : GPairList)

/-- A list of command values (elements of a sequence or tuple). -/
inductive GValueList where
  | nil
  | cons (v : GValue) (vs : GValueList)

/-- A list of named fields of a struct. -/
inductive GFieldList where
  | nil
  | cons (name : String) (v : GValue) (fs : GFieldList)

/-- A list of key/value pairs of a map. -/
inductive GPairList where
  | nil
  | cons (k : GValue) (v : GValue) (ps : GPairList)

end

/-- The line writer of gcode-serializer/src/lib.rs (`GcodeLineWriter`):
an output buffer, the optional sequence number of the line, and the running
XOR checksum (a u8; XOR of bytes keeps it below 256). -/
structure GcodeLineWriter where
  buffer : List Nat
  sequence : Option Int
  checksum : Nat

/-- The writer's `write`: append the bytes to the buffer and XOR each of
them into the checksum (`checksum` then `put_slice` in the source). -/
def GcodeLineWriter.write (w : GcodeLineWriter) (buf : List Nat) : GcodeLineWriter :=
  { buffer := w.buffer ++ buf
    sequence := w.sequence
    checksum := buf.foldl (fun c b => c ^^^ b) w.checksum }

/-- The writer's `finish`: on a sequenced line append a 42 (the asterisk)
and the checksum in decimal — written with `put` directly, so they do not
feed the checksum — then always a 10 (the newline).  Returns the line's
sequence number, 0 for unsequenced, together with the final buffer. -/
def GcodeLineWriter.finish (w : GcodeLineWriter) : Int × List Nat :=
  match w.sequence with
  | some sequence => (sequence, w.buffer ++ 42 :: natDecimal w.checksum ++ [10])
  | none => (0, w.buffer ++ [10])

mutual

/-- The serde `Serializer` impl for `GcodeLineWriter`, one visitor case per
constructor.  `none` models a panic: the only panic site is
`SerializeStruct::serialize_field`, whose `key.chars().nth(0).unwrap()`
fails exactly when the field name is empty (see `serializeFields`). -/
def serializeVal (w : GcodeLineWriter) : GValue → Option GcodeLineWriter
  | .vBool b => some (w.write (natDecimal (if b then 1 else 0)))
  | .vInt n => some (w.write (intDecimal n))
  | .vFloat rendered => some (w.write (strUtf8 rendered))
  | .vChar c => some (w.write (charUtf8 c))
  | .vStr s => some (w.write (strUtf8 s))
  | .vBytes bs => some (w.write bs)
  | .vNone => some w
  | .vUnit => some w
  | .vSome v => serializeVal w v
  | .vNewtype v => serializeVal w v
  | .vUnitStruct name => some (w.write (strUtf8 name))
  | .vSeq vs => serializeList w vs
  | .vStruct name fs => serializeFields (w.write (strUtf8 name)) fs
  | .vMap ps => serializePairs w ps

/-- Sequence elements are serialized in order (`SerializeSeq`). -/
def serializeList (w : GcodeLineWriter) : GValueList → Option GcodeLineWriter
  | .nil => some w
  | .cons v vs => do serializeList (← serializeVal w v) vs

/-- Struct fields (`SerializeStruct::serialize_field`): write the ASCII
uppercase of the first character of the field name — the `unwrap` of that
first character panics (`none`) when the name is empty — then the value. -/
def serializeFields (w : GcodeLineWriter) : GFieldList → Option GcodeLineWriter
  | .nil => some w
  | .cons name v fs => do
      let c ← name.data.head?
      let w1 := w.write (charUtf8 (asciiUpper c))
      let w2 ← serializeVal w1 v
      serializeFields w2 fs

/-- Map entries (`SerializeMap`): each key is written, then its value. -/
def serializePairs (w : GcodeLineWriter) : GPairList → Option GcodeLineWriter
  | .nil => some w
  | .cons k v ps => do
      let w1 ← serializeVal w k
      let w2 ← serializeVal w1 v
      serializePairs w2 ps

end

/-- Two's-complement wrap of an integer into the i32 range, the effect of
`AtomicI32::fetch_add` overflow. -/
def wrap32 (n : Int) : Int :=
  (n + 2 ^ 31) % 2 ^ 32 - 2 ^ 31

/-- The serializer of gcode-serializer/src/lib.rs: its observable state is
the shared atomic i32 sequence counter (initialized to 1 by `Default`).
The internal `BytesMut` buffer is split off whole on every call, so each
call observes — and leaves — an empty buffer; it is therefore not part of
the state. -/
structure Serializer where
  sequence : Int
deriving DecidableEq

/-- The default serializer: counter starts at 1. -/
def Serializer.default : Serializer := ⟨1⟩

/-- The serializer's sequenced `serialize` (via `start_line` and
`serialize_into`): `fetch_add(1)` the counter (wrapping, returning the old
value), write the char `N` and the claimed number through the checksumming
writer, then the command value, then `finish`.  Returns the sequence number
and bytes (`none` on panic: the counter has already advanced) and the
serializer with the advanced counter. -/
def Serializer.serialize (s : Serializer) (v : GValue) :
    Option (Int × List Nat) × Serializer :=
  let sequence := s.sequence
  let s2 : Serializer := ⟨wrap32 (s.sequence + 1)⟩
  let w0 : GcodeLineWriter := ⟨[], some sequence, 0⟩
  let w1 := (w0.write (charUtf8 (Char.ofNat 78))).write (intDecimal sequence)
  match serializeVal w1 v with
  | none => (none, s2)
  | some w2 => (some w2.finish, s2)

/-- The serializer's `serialize_unsequenced` (via
`serialize_unsequenced_into`): a fresh writer with no sequence number, the
body of the value, then `finish` (which then adds only the newline).  The
counter is never read or written; the serializer comes back unchanged. -/
def Serializer.serialize_unsequenced (s : Serializer) (v : GValue) :
    Option (List Nat) × Serializer :=
  let w0 : GcodeLineWriter := ⟨[], none, 0⟩
  match serializeVal w0 v with
  | none => (none, s)
  | some w => (some w.finish.2, s)

/-- The serializer's `set_sequence`: store the given number into the
counter. -/
def Serializer.set_sequence (_s : Serializer) (new_sequence : Int) : Serializer :=
  ⟨new_sequence⟩

mutual

/-- Specification-side body of a command value: the bytes the visitor
writes for it, independent of any writer state (`none` on the empty field
name panic).  `serializeVal_eq_render` below proves that threading any
writer through `serializeVal` appends exactly these bytes. -/
def renderValue : GValue → Option (List Nat)
  | .vBool b => some (natDecimal (if b then 1 else 0))
  | .vInt n => some (intDecimal n)
  | .vFloat rendered => some (strUtf8 rendered)
  | .vChar c => some (charUtf8 c)
  | .vStr s => some (strUtf8 s)
  | .vBytes bs => some bs
  | .vNone => some []
  | .vUnit => some []
  | .vSome v => renderValue v
  | .vNewtype v => renderValue v
  | .vUnitStruct name => some (strUtf8 name)
  | .vSeq vs => renderList vs
  | .vStruct name fs => (renderFields fs).map (fun bs => strUtf8 name ++ bs)
  | .vMap ps => renderPairs ps

/-- Body bytes of a list of values, concatenated with no separator. -/
def renderList : GValueList → Option (List Nat)
  | .nil => some []
  | .cons v vs => do pure ((← renderValue v) ++ (← renderList vs))

/-- Body bytes of a field list: per field the uppercased first character of
the name, then the value; `none` when a name is empty. -/
def renderFields : GFieldList → Option (List Nat)
  | .nil => some []
  | .cons name v fs => do
      let c ← name.data.head?
      pure (charUtf8 (asciiUpper c) ++ (← renderValue v) ++ (← renderFields fs))

/-- Body bytes of map entries: key bytes then value bytes, in order. -/
def renderPairs : GPairList → Option (List Nat)
  | .nil => some []
  | .cons k v ps => do
      pure ((← renderValue k) ++ (← renderValue v) ++ (← renderPairs ps))

end

mutual

/-- A command value is well formed when every struct field name occurring
in it is non-empty — exactly the condition under which the visitor's only
panic site is unreachable. -/
def wellFormed : GValue → Bool
  | .vSome v => wellFormed v
  | .vNewtype v => wellFormed v
  | .vSeq vs => wfList vs
  | .vStruct _ fs => wfFields fs
  | .vMap ps => wfPairs ps
  | _ => true

/-- Well-formedness of each element of a value list. -/
def wfList : GValueList → Bool
  | .nil => true
  | .cons v vs => wellFormed v && wfList vs

/-- Well-formedness of a field list: every name non-empty, every value
well formed. -/
def wfFields : GFieldList → Bool
  | .nil => true
  | .cons name v fs => !name.data.isEmpty && wellFormed v && wfFields fs

/-- Well-formedness of each key and value of a map. -/
def wfPairs : GPairList → Bool
  | .nil => true
  | .cons k v ps => wellFormed k && wellFormed v && wfPairs ps

end

/-- Responses of print3rs-core (`Response` in response.rs, re-exported by
lib.rs): `ok` is the plain acknowledgement (the spec's PlainOk),
`sequencedOk` and `resend` carry a line number, `other` is any line the
classifier does not recognize. -/
inductive Response where
  | ok
  | sequencedOk (n : Int)
  | resend (n : Int)
  | other
deriving DecidableEq

/-- The correlator `search_for_sequence` of print3rs-core/src/lib.rs as a
function of the finite list of lines its subscription yields before
closing.  The classifier `response.parse` lives in response.rs, which is
not part of the sources here, so it is abstracted as the `parse` argument
(`none` models a parse error, discarded by the catch-all arm exactly like
any non-matching response).  The loop returns `SequencedOk seq` or
`Resend seq` on the first line classified with the searched-for number,
skips every other line, and falls through to `Response::Ok` when `recv`
errors (the stream closed). -/
def search_for_sequence (sequence : Int)
    (parse : List Nat → Option Response) : List (List Nat) → Response
  | [] => .ok
  | resp :: rest =>
    match parse resp with
    | some (.sequencedOk seq) =>
        if seq = sequence then .sequencedOk seq
        else search_for_sequence sequence parse rest
    | some (.resend seq) =>
        if seq = sequence then .resend seq
        else search_for_sequence sequence parse rest
    | _ => search_for_sequence sequence parse rest

/-- Result of one `broadcast::Receiver::recv` call, as observed by
`Socket::read_next_line`: a line, a lag report (the receiver fell behind
and `n` messages were dropped), or a closed channel. -/
inductive RecvResult where
  | ok (line : List Nat)
  | lagged (n : Nat)
  | closed
deriving DecidableEq

/-- Possible outcomes of `Socket::read_next_line`: a line, the
disconnection error, or a panic. -/
inductive ReadOutcome where
  | ok (line : List Nat)
  | disconnected
  | panic
deriving DecidableEq

/-- The body of `Socket::read_next_line` in print3rs-core/src/lib.rs as a
function of the `recv` result: every arm of its `loop` exits on the first
iteration — `Ok` breaks with the line, `Closed` breaks with the
disconnection error, and the `Lagged` arm is `todo!()`, which panics. -/
def read_next_line : RecvResult → ReadOutcome
  | .ok line => .ok line
  | .lagged _ => .panic
  | .closed => .disconnected

/-- First complete line of a buffer: the prefix up to and including the
first 10 (the newline), together with the rest — `none` when the buffer
holds no newline.  Mirrors `buf.iter().position(|b| *b == b'\n')` followed
by `buf.split_to(n + 1)` in `printer_com_task`. -/
def breakLine : List Nat → Option (List Nat × List Nat)
  | [] => none
  | b :: rest =>
    if b = 10 then some ([10], rest)
    else (breakLine rest).map (fun p => (b :: p.1, p.2))

/-- Rest of a broken buffer is shorter than the buffer. -/
theorem breakLine_rest_lt {buf line rest : List Nat}
    (h : breakLine buf = some (line, rest)) : rest.length < buf.length := by
  induction buf generalizing line rest with
  | nil => exact absurd h (by simp [breakLine])
  | cons b bs ih =>
    simp only [breakLine] at h
    by_cases hb : b = 10
    · rw [if_pos hb] at h
      injection h with h1
      injection h1 with hl hr
      subst hr
      simp
    · rw [if_neg hb] at h
      cases hbs : breakLine bs with
      | none => rw [hbs] at h; exact absurd h (by simp)
      | some p =>
        obtain ⟨l2, r2⟩ := p
        rw [hbs] at h
        simp only [Option.map] at h
        injection h with h1
        injection h1 with hl hr
        subst hr
        have := ih hbs
        simp only [List.length_cons]
        omega

/-- The inner `while let` of `printer_com_task`'s read branch: split off and
publish every complete line of the buffer.  `publishOk` says whether
`responsetx.send` succeeds (it fails when no receiver is live);
on a failed send the source `return`s from the task, modelled as `none`.
`some buf` is the task continuing its loop with `buf` as the remaining
(incomplete) input. -/
def drainLines (publishOk : Bool) (buf : List Nat) : Option (List Nat) :=
  match h : breakLine buf with
  | none => some buf
  | some (_, rest) =>
    if publishOk then drainLines publishOk rest else none
termination_by buf.length
decreasing_by exact breakLine_rest_lt h

/-- One execution of the transport-read branch of `printer_com_task`:
`read_buf` appends the received bytes to the rolling buffer, then every
complete line is published.  `none` means the task terminated. -/
def comStepInbound (publishOk : Bool) (buf bytes : List Nat) : Option (List Nat) :=
  drainLines publishOk (buf ++ bytes)

/-- Writing nothing leaves the writer unchanged. -/
theorem GcodeLineWriter.write_nil (w : GcodeLineWriter) : w.write [] = w := by
  simp [GcodeLineWriter.write]

/-- Two consecutive writes are one write of the concatenation. -/
theorem GcodeLineWriter.write_write (w : GcodeLineWriter) (a b : List Nat) :
    (w.write a).write b = w.write (a ++ b) := by
  simp [GcodeLineWriter.write, List.foldl_append]

mutual

/-- Threading a writer through the visitor appends exactly the body bytes
of the value (and panics exactly when the body renderer does). -/
theorem serializeVal_eq_render (v : GValue) (w : GcodeLineWriter) :
    serializeVal w v = (renderValue v).map w.write := by
  cases v with
  | vBool b => simp [serializeVal, renderValue]
  | vInt n => simp [serializeVal, renderValue]
  | vFloat r => simp [serializeVal, renderValue]
  | vChar c => simp [serializeVal, renderValue]
  | vStr s => simp [serializeVal, renderValue]
  | vBytes bs => simp [serializeVal, renderValue]
  | vNone => simp [serializeVal, renderValue, GcodeLineWriter.write_nil]
  | vUnit => simp [serializeVal, renderValue, GcodeLineWriter.write_nil]
  | vSome v => simp [serializeVal, renderValue, serializeVal_eq_render v w]
  | vNewtype v => simp [serializeVal, renderValue, serializeVal_eq_render v w]
  | vUnitStruct name => simp [serializeVal, renderValue]
  | vSeq vs => simp [serializeVal, renderValue, serializeList_eq_render vs w]
  | vStruct name fs =>
    simp only [serializeVal, renderValue]
    rw [serializeFields_eq_render fs (w.write (strUtf8 name))]
    cases renderFields fs with
    | none => simp
    | some bs => simp [GcodeLineWriter.write_write]
  | vMap ps => simp [serializeVal, renderValue, serializePairs_eq_render ps w]

/-- List version of `serializeVal_eq_render`. -/
theorem serializeList_eq_render (vs : GValueList) (w : GcodeLineWriter) :
    serializeList w vs = (renderList vs).map w.write := by
  cases vs with
  | nil => simp [serializeList, renderList, GcodeLineWriter.write_nil]
  | cons v vs =>
    simp only [serializeList, renderList]
    rw [serializeVal_eq_render v w]
    cases renderValue v with
    | none => simp
    | some a =>
      simp only [Option.pure_def, Option.bind_eq_bind, Option.map_some', Option.some_bind]
      rw [serializeList_eq_render vs (w.write a)]
      cases renderList vs with
      | none => simp
      | some bs => simp [GcodeLineWriter.write_write]

/-- Field-list version of `serializeVal_eq_render`. -/
theorem serializeFields_eq_render (fs : GFieldList) (w : GcodeLineWriter) :
    serializeFields w fs = (renderFields fs).map w.write := by
  cases fs with
  | nil => simp [serializeFields, renderFields, GcodeLineWriter.write_nil]
  | cons name v fs =>
    simp only [serializeFields, renderFields]
    cases name.data.head? with
    | none => simp
    | some c =>
      simp only [Option.pure_def, Option.bind_eq_bind, Option.map_some', Option.some_bind]
      rw [serializeVal_eq_render v (w.write (charUtf8 (asciiUpper c)))]
      cases renderValue v with
      | none => simp
      | some a =>
        simp only [Option.pure_def, Option.bind_eq_bind, Option.map_some', Option.some_bind]
        rw [serializeFields_eq_render fs ((w.write (charUtf8 (asciiUpper c))).write a)]
        cases renderFields fs with
        | none => simp
        | some bs => simp [GcodeLineWriter.write_write]

/-- Pair-list version of `serializeVal_eq_render`. -/
theorem serializePairs_eq_render (ps : GPairList) (w : GcodeLineWriter) :
    serializePairs w ps = (renderPairs ps).map w.write := by
  cases ps with
  | nil => simp [serializePairs, renderPairs, GcodeLineWriter.write_nil]
  | cons k v ps =>
    simp only [serializePairs, renderPairs]
    rw [serializeVal_eq_render k w]
    cases renderValue k with
    | none => simp
    | some a =>
      simp only [Option.pure_def, Option.bind_eq_bind, Option.map_some', Option.some_bind]
      rw [serializeVal_eq_render v (w.write a)]
      cases renderValue v with
      | none => simp
      | some b =>
        simp only [Option.pure_def, Option.bind_eq_bind, Option.map_some', Option.some_bind]
        rw [serializePairs_eq_render ps ((w.write a).write b)]
        cases renderPairs ps with
        | none => simp
        | some bs => simp [GcodeLineWriter.write_write]

end

mutual

/-- Body rendering succeeds on every well-formed value. -/
theorem renderValue_isSome (v : GValue) :
    wellFormed v = true → (renderValue v).isSome = true := by
  cases v with
  | vBool b => intro _; simp [renderValue]
  | vInt n => intro _; simp [renderValue]
  | vFloat r => intro _; simp [renderValue]
  | vChar c => intro _; simp [renderValue]
  | vStr s => intro _; simp [renderValue]
  | vBytes bs => intro _; simp [renderValue]
  | vNone => intro _; simp [renderValue]
  | vUnit => intro _; simp [renderValue]
  | vSome v =>
    intro h
    simp only [renderValue]
    exact renderValue_isSome v (by simpa [wellFormed] using h)
  | vNewtype v =>
    intro h
    simp only [renderValue]
    exact renderValue_isSome v (by simpa [wellFormed] using h)
  | vUnitStruct name => intro _; simp [renderValue]
  | vSeq vs =>
    intro h
    simp only [renderValue]
    exact renderList_isSome vs (by simpa [wellFormed] using h)
  | vStruct name fs =>
    intro h
    obtain ⟨b, hb⟩ := Option.isSome_iff_exists.mp
      (renderFields_isSome fs (by simpa [wellFormed] using h))
    simp [renderValue, hb]
  | vMap ps =>
    intro h
    simp only [renderValue]
    exact renderPairs_isSome ps (by simpa [wellFormed] using h)

/-- List version of `renderValue_isSome`. -/
theorem renderList_isSome (vs : GValueList) :
    wfList vs = true → (renderList vs).isSome = true := by
  cases vs with
  | nil => intro _; simp [renderList]
  | cons v vs =>
    intro h
    rw [wfList, Bool.and_eq_true] at h
    obtain ⟨a, ha⟩ := Option.isSome_iff_exists.mp (renderValue_isSome v h.1)
    obtain ⟨b, hb⟩ := Option.isSome_iff_exists.mp (renderList_isSome vs h.2)
    simp [renderList, ha, hb]

/-- Field-list version of `renderValue_isSome`: every field name is
non-empty, so the first-character lookup succeeds. -/
theorem renderFields_isSome (fs : GFieldList) :
    wfFields fs = true → (renderFields fs).isSome = true := by
  cases fs with
  | nil => intro _; simp [renderFields]
  | cons name v fs =>
    intro h
    rw [wfFields, Bool.and_eq_true, Bool.and_eq_true] at h
    obtain ⟨⟨hname, hv⟩, hfs⟩ := h
    obtain ⟨a, ha⟩ := Option.isSome_iff_exists.mp (renderValue_isSome v hv)
    obtain ⟨b, hb⟩ := Option.isSome_iff_exists.mp (renderFields_isSome fs hfs)
    cases hd : name.data with
    | nil => rw [hd] at hname; simp at hname
    | cons c cs => simp [renderFields, hd, ha, hb]

/-- Pair-list version of `renderValue_isSome`. -/
theorem renderPairs_isSome (ps : GPairList) :
    wfPairs ps = true → (renderPairs ps).isSome = true := by
  cases ps with
  | nil => intro _; simp [renderPairs]
  | cons k v ps =>
    intro h
    rw [wfPairs, Bool.and_eq_true, Bool.and_eq_true] at h
    obtain ⟨⟨hk, hv⟩, hps⟩ := h
    obtain ⟨a, ha⟩ := Option.isSome_iff_exists.mp (renderValue_isSome k hk)
    obtain ⟨b, hb⟩ := Option.isSome_iff_exists.mp (renderValue_isSome v hv)
    obtain ⟨c, hc⟩ := Option.isSome_iff_exists.mp (renderPairs_isSome ps hps)
    simp [renderPairs, ha, hb, hc]

end

/-- XOR of a byte list, initial value 0 — the checksum a fresh line writer
accumulates over exactly these bytes. -/
def listXor (bs : List Nat) : Nat :=
  bs.foldl (fun c b => c ^^^ b) 0

/-- The byte 78 is the UTF-8 encoding of the char `N`. -/
theorem charUtf8_N : charUtf8 (Char.ofNat 78) = [78] := rfl

/-- Closed form of a sequenced serialization at counter `k` for a value
whose body renders to `body`: the emitted sequence number is `k`, the bytes
are `N`, `k` in decimal, the body, the asterisk, the decimal XOR of all
preceding bytes, and the newline, and the counter advances (wrapping). -/
theorem serialize_eq_of_render (k : Int) (v : GValue) (body : List Nat)
    (h : renderValue v = some body) :
    Serializer.serialize ⟨k⟩ v =
      (some (k, (78 :: (intDecimal k ++ body)) ++
          (42 :: natDecimal (listXor (78 :: (intDecimal k ++ body)))) ++ [10]),
       ⟨wrap32 (k + 1)⟩) := by
  simp only [Serializer.serialize, serializeVal_eq_render, h, Option.map_some',
    charUtf8_N, GcodeLineWriter.write_write]
  simp [GcodeLineWriter.write, GcodeLineWriter.finish, listXor]

/-- Closed form of an unsequenced serialization for a value whose body
renders to `body`: just the body and a newline, and the serializer — in
particular its counter — is returned unchanged. -/
theorem serialize_unsequenced_eq_of_render (s : Serializer) (v : GValue)
    (body : List Nat) (h : renderValue v = some body) :
    Serializer.serialize_unsequenced s v = (some (body ++ [10]), s) := by
  simp only [Serializer.serialize_unsequenced, serializeVal_eq_render, h, Option.map_some']
  simp [GcodeLineWriter.write, GcodeLineWriter.finish]

/-- Name of the struct in the source's test suite scenarios. -/
def nameG1234 : String := "G1234"

/-- Name of the first field of that struct. -/
def nameX : String := "x"

/-- Name of the second field of that struct. -/
def nameY : String := "y"

/-- Shortest round-trip decimal rendering of the f32 value 2.3 (what ryu
prints for it, per the source's own test expectations). -/
def floatText23 : String := "2.3"

/-- The command `G1234 { x: -1i32, y: 2.3f32 }` of the source's tests. -/
def g1234 : GValue :=
  .vStruct nameG1234 (.cons nameX (.vInt (-1)) (.cons nameY (.vFloat floatText23) .nil))

/-- Expected wire bytes `N1G1234X-1Y2.3*14` and a newline. -/
def lineSeq1 : List Nat :=
  [78, 49, 71, 49, 50, 51, 52, 88, 45, 49, 89, 50, 46, 51, 42, 49, 52, 10]

/-- Expected wire bytes `N2G1234X-1Y2.3*13` and a newline. -/
def lineSeq2 : List Nat :=
  [78, 50, 71, 49, 50, 51, 52, 88, 45, 49, 89, 50, 46, 51, 42, 49, 51, 10]

/-- Expected wire bytes `N3G1234X-1Y2.3*12` and a newline. -/
def lineSeq3 : List Nat :=
  [78, 51, 71, 49, 50, 51, 52, 88, 45, 49, 89, 50, 46, 51, 42, 49, 50, 10]

/-- A struct name used in the empty-field-name example. -/
def nameG1 : String := "G1"

/-- The empty string, used as a degenerate field name. -/
def emptyName : String := ""

/-- A stub line classifier for exercising the correlator on concrete
input: every line classifies as the sequenced acknowledgement of line 5. -/
def parseStub : List Nat → Option Response :=
  fun _ => some (.sequencedOk 5)

/-- Wrapping is the identity on integers that stay in the i32 range. -/
theorem wrap32_eq_self (n : Int) (h1 : -(2 ^ 31) ≤ n) (h2 : n ≤ 2 ^ 31 - 1) :
    wrap32 n = n := by
  unfold wrap32
  omega

/-- A buffer containing a newline has a first complete line. -/
theorem breakLine_isSome_of_mem (l : List Nat) (h : 10 ∈ l) :
    (breakLine l).isSome = true := by
  induction l with
  | nil => cases h
  | cons b bs ih =>
    by_cases hb : b = 10
    · simp [breakLine, hb]
    · have hm : 10 ∈ bs := by
        cases h with
        | head => exact absurd rfl hb
        | tail _ h2 => exact h2
      obtain ⟨p, hp⟩ := Option.isSome_iff_exists.mp (ih hm)
      simp [breakLine, hb, hp]

/-- When a complete line is available and publishing fails, the line loop
returns, terminating the task. -/
theorem drainLines_publish_failure (l : List Nat) (h : (breakLine l).isSome = true) :
    drainLines false l = none := by
  obtain ⟨p, hp⟩ := Option.isSome_iff_exists.mp h
  unfold drainLines
  split
  · next heq => rw [heq] at hp; exact absurd hp (by simp)
  · simp

/-- C1: a sequenced serialization at counter `k` of a well-formed command
value `v` emits exactly the byte `N` (78), `k` in ASCII decimal, the
rendered body of `v`, the asterisk (42), the decimal XOR (initial value 0)
of every byte before the asterisk — `N`, the sequence digits and the body,
excluding the asterisk, the checksum digits and the newline — and one
newline (10); it returns sequence number `k` and advances the counter. -/
theorem serialize_sequenced_framing (k : Int) (v : GValue) (h : wellFormed v = true) :
    ∃ body : List Nat, renderValue v = some body ∧
      Serializer.serialize ⟨k⟩ v =
        (some (k, (78 :: (intDecimal k ++ body)) ++
            (42 :: natDecimal (listXor (78 :: (intDecimal k ++ body)))) ++ [10]),
         ⟨wrap32 (k + 1)⟩) := by
  obtain ⟨body, hb⟩ := Option.isSome_iff_exists.mp (renderValue_isSome v h)
  exact ⟨body, hb, serialize_eq_of_render k v body hb⟩

/-- Witness for C1 at the test value `G1234 { x: -1, y: 2.3 }`, counter 7. -/
theorem serialize_sequenced_framing_witness :
    wellFormed g1234 = true ∧
    (∃ body : List Nat, renderValue g1234 = some body ∧
      Serializer.serialize ⟨7⟩ g1234 =
        (some (7, (78 :: (intDecimal 7 ++ body)) ++
            (42 :: natDecimal (listXor (78 :: (intDecimal 7 ++ body)))) ++ [10]),
         ⟨wrap32 (7 + 1)⟩)) :=
  ⟨by decide, serialize_sequenced_framing 7 g1234 (by decide)⟩

/-- C2: the `Lagged` branch of `Socket::read_next_line` is `todo!()`, so a
receiver that observes a lag (here: 65 dropped lines) panics instead of
receiving the oldest still-available line — contrary to the claim and to
the method's own doc comment. -/
theorem read_next_line_lagged_panics : read_next_line (.lagged 65) = .panic := rfl

/-- C3: serializing `G1234 { x: -1, y: 2.3 }` with the counter at 1, 2 and
3 produces the exact lines `N1G1234X-1Y2.3*14`, `N2G1234X-1Y2.3*13` and
`N3G1234X-1Y2.3*12`, each newline-terminated, returning sequence numbers
1, 2 and 3 and advancing the counter each time. -/
theorem serialize_g1234_scenarios :
    Serializer.serialize ⟨1⟩ g1234 = (some (1, lineSeq1), ⟨2⟩) ∧
    Serializer.serialize ⟨2⟩ g1234 = (some (2, lineSeq2), ⟨3⟩) ∧
    Serializer.serialize ⟨3⟩ g1234 = (some (3, lineSeq3), ⟨4⟩) :=
  ⟨by decide, by decide, by decide⟩

/-- C4: the correlator resolves to `SequencedOk s` on a line classified as
`SequencedOk s`, to `Resend s` on a line classified as `Resend s`, skips a
line classified as anything else (plain ok, other, a parse error, or a
sequenced response with a different number), and resolves to the plain
`Ok` when the stream closes without a match. -/
theorem search_for_sequence_spec (s : Int) (parse : List Nat → Option Response)
    (line : List Nat) (rest : List (List Nat)) :
    search_for_sequence s parse [] = .ok ∧
    (parse line = some (.sequencedOk s) →
      search_for_sequence s parse (line :: rest) = .sequencedOk s) ∧
    (parse line = some (.resend s) →
      search_for_sequence s parse (line :: rest) = .resend s) ∧
    (parse line ≠ some (.sequencedOk s) → parse line ≠ some (.resend s) →
      search_for_sequence s parse (line :: rest) = search_for_sequence s parse rest) := by
  refine ⟨rfl, ?_, ?_, ?_⟩
  · intro h; simp [search_for_sequence, h]
  · intro h; simp [search_for_sequence, h]
  · intro h1 h2
    simp only [search_for_sequence]
    cases hp : parse line with
    | none => rfl
    | some r =>
      cases r with
      | ok => rfl
      | sequencedOk n =>
        have hn : ¬ n = s := fun hn => h1 (by rw [hp, hn])
        simp [hn]
      | resend n =>
        have hn : ¬ n = s := fun hn => h2 (by rw [hp, hn])
        simp [hn]
      | other => rfl

/-- Witness for C4: with a classifier that reads every line as the
sequenced acknowledgement of line 5, the correlator resolves on the head
line. -/
theorem search_for_sequence_spec_witness :
    parseStub [111] = some (.sequencedOk 5) ∧
    search_for_sequence 5 parseStub ([111] :: []) = .sequencedOk 5 :=
  ⟨by decide, (search_for_sequence_spec 5 parseStub [111] []).2.1 (by decide)⟩

/-- C5: an unsequenced serialization of a well-formed command value emits
exactly the rendered body followed by one newline — no `N` prefix, no
checksum suffix — and returns the serializer, in particular its counter,
unchanged; as an equation on a pure function, repeated calls on the same
input are byte-identical. -/
theorem serialize_unsequenced_pure (s : Serializer) (v : GValue)
    (h : wellFormed v = true) :
    ∃ body : List Nat, renderValue v = some body ∧
      Serializer.serialize_unsequenced s v = (some (body ++ [10]), s) := by
  obtain ⟨body, hb⟩ := Option.isSome_iff_exists.mp (renderValue_isSome v h)
  exact ⟨body, hb, serialize_unsequenced_eq_of_render s v body hb⟩

/-- Witness for C5 at the test value with the counter at 9. -/
theorem serialize_unsequenced_pure_witness :
    wellFormed g1234 = true ∧
    (∃ body : List Nat, renderValue g1234 = some body ∧
      Serializer.serialize_unsequenced ⟨9⟩ g1234 = (some (body ++ [10]), ⟨9⟩)) :=
  ⟨by decide, serialize_unsequenced_pure ⟨9⟩ g1234 (by decide)⟩

/-- C6 counterexample: at `k = 2147483647` (i32::MAX) the claim fails —
after `set_sequence k` and one sequenced serialization the counter does
not hold `k + 1` (the wrapping `fetch_add` leaves i32::MIN instead). -/
theorem set_sequence_succ_cex :
    ¬ ((Serializer.default.set_sequence 2147483647).serialize GValue.vUnit).2 =
      (⟨2147483647 + 1⟩ : Serializer) := by decide

/-- C6 (amended): for every i32 value `k` below i32::MAX, `set_sequence k`
followed by one sequenced serialization emits sequence number `k` and
leaves the counter holding `k + 1`; at `k = i32::MAX` the counter instead
wraps to i32::MIN. -/
theorem set_sequence_then_serialize (s : Serializer) (k : Int) (v : GValue)
    (hk1 : -(2 ^ 31) ≤ k) (hk2 : k ≤ 2 ^ 31 - 2) (h : wellFormed v = true) :
    ∃ bytes : List Nat,
      ((s.set_sequence k).serialize v).1 = some (k, bytes) ∧
      ((s.set_sequence k).serialize v).2 = ⟨k + 1⟩ := by
  obtain ⟨body, _, hser⟩ := serialize_sequenced_framing k v h
  rw [show s.set_sequence k = (⟨k⟩ : Serializer) from rfl, hser,
    wrap32_eq_self (k + 1) (by omega) (by omega)]
  exact ⟨_, rfl, rfl⟩

/-- Witness for C6 (amended) at `k = 5` and the test value. -/
theorem set_sequence_then_serialize_witness :
    (-(2 ^ 31) : Int) ≤ 5 ∧ (5 : Int) ≤ 2 ^ 31 - 2 ∧ wellFormed g1234 = true ∧
    (∃ bytes : List Nat,
      ((Serializer.default.set_sequence 5).serialize g1234).1 = some (5, bytes) ∧
      ((Serializer.default.set_sequence 5).serialize g1234).2 = ⟨5 + 1⟩) :=
  ⟨by decide, by decide, by decide,
    set_sequence_then_serialize Serializer.default 5 g1234 (by decide) (by decide) (by decide)⟩

/-- C7: for a well-formed value the sequenced line at any number `k` is the
`N` byte and the decimal of `k`, the body, then the asterisk, checksum
digits and newline — so stripping that prefix and suffix leaves exactly
the unsequenced line, the body followed by the newline: the body bytes are
identical on both paths. -/
theorem unsequenced_matches_sequenced_body (s0 : Serializer) (k : Int) (v : GValue)
    (h : wellFormed v = true) :
    ∃ body cks : List Nat,
      (Serializer.serialize ⟨k⟩ v).1 =
        some (k, (78 :: (intDecimal k ++ body)) ++ (42 :: cks) ++ [10]) ∧
      (Serializer.serialize_unsequenced s0 v).1 = some (body ++ [10]) := by
  obtain ⟨body, hb, hser⟩ := serialize_sequenced_framing k v h
  refine ⟨body, natDecimal (listXor (78 :: (intDecimal k ++ body))), ?_, ?_⟩
  · rw [hser]
  · rw [serialize_unsequenced_eq_of_render s0 v body hb]

/-- Witness for C7 at the test value, counter 2. -/
theorem unsequenced_matches_sequenced_body_witness :
    wellFormed g1234 = true ∧
    (∃ body cks : List Nat,
      (Serializer.serialize ⟨2⟩ g1234).1 =
        some (2, (78 :: (intDecimal 2 ++ body)) ++ (42 :: cks) ++ [10]) ∧
      (Serializer.serialize_unsequenced ⟨11⟩ g1234).1 = some (body ++ [10])) :=
  ⟨by decide, unsequenced_matches_sequenced_body ⟨11⟩ 2 g1234 (by decide)⟩

/-- C8 counterexample: with no live receiver (`publishOk = false`), one
inbound chunk consisting of a single newline byte makes `printer_com_task`
return (`none` = the task terminated) — the claim that the task continues
past a publish error is false. -/
theorem com_task_publish_failure_cex : comStepInbound false [] [10] = none := by
  unfold comStepInbound
  exact drainLines_publish_failure _ (by decide)

/-- C8 (amended): whenever the rolling buffer plus the received bytes
contain a complete line (a 10 byte) and publishing fails because no
receiver is live, `printer_com_task` terminates; later subscribers receive
nothing further. -/
theorem com_task_terminates_on_publish_failure (buf bytes : List Nat)
    (h : 10 ∈ buf ++ bytes) : comStepInbound false buf bytes = none := by
  unfold comStepInbound
  exact drainLines_publish_failure _ (breakLine_isSome_of_mem _ h)

/-- Witness for C8 (amended): one byte of pending input, then a newline. -/
theorem com_task_terminates_on_publish_failure_witness :
    10 ∈ ([72] ++ [13, 10] : List Nat) ∧ comStepInbound false [72] [13, 10] = none :=
  ⟨by decide, com_task_terminates_on_publish_failure [72] [13, 10] (by decide)⟩

/-- C9: serializing a struct with an empty field name panics in
`serialize_field` (the unwrap of the first character fails), while for
every command value all of whose field names are non-empty, both the
unsequenced and the sequenced path succeed. -/
theorem serialize_field_empty_name (s : Serializer) (v : GValue)
    (h : wellFormed v = true) :
    (Serializer.serialize_unsequenced Serializer.default
        (.vStruct nameG1 (.cons emptyName .vUnit .nil))).1 = none ∧
    (Serializer.serialize_unsequenced s v).1.isSome = true ∧
    (Serializer.serialize s v).1.isSome = true := by
  obtain ⟨body, hb⟩ := Option.isSome_iff_exists.mp (renderValue_isSome v h)
  obtain ⟨k⟩ := s
  refine ⟨by decide, ?_, ?_⟩
  · rw [serialize_unsequenced_eq_of_render ⟨k⟩ v body hb]; rfl
  · rw [serialize_eq_of_render k v body hb]; rfl

/-- Witness for C9 at the test value with the default serializer. -/
theorem serialize_field_empty_name_witness :
    wellFormed g1234 = true ∧
    ((Serializer.serialize_unsequenced Serializer.default
        (.vStruct nameG1 (.cons emptyName .vUnit .nil))).1 = none ∧
     (Serializer.serialize_unsequenced Serializer.default g1234).1.isSome = true ∧
     (Serializer.serialize Serializer.default g1234).1.isSome = true) :=
  ⟨by decide, serialize_field_empty_name Serializer.default g1234 (by decide)⟩

/-- C10: the counter is a wrapping 32-bit signed integer — a sequenced
serialization at i32::MAX emits sequence number 2147483647 and leaves the
counter at i32::MIN (-2147483648); the next serialization then emits
-2147483648, which is negative and smaller than 2147483647, so strict
monotonicity of emitted sequence numbers fails at overflow. -/
theorem counter_overflow_wraps (v : GValue) (h : wellFormed v = true) :
    (∃ bytes, Serializer.serialize ⟨2147483647⟩ v =
      (some (2147483647, bytes), ⟨-2147483648⟩)) ∧
    (∃ bytes, Serializer.serialize ⟨-2147483648⟩ v =
      (some (-2147483648, bytes), ⟨-2147483647⟩)) ∧
    (-2147483648 : Int) < 0 ∧ (-2147483648 : Int) < 2147483647 := by
  obtain ⟨body, hb⟩ := Option.isSome_iff_exists.mp (renderValue_isSome v h)
  have h1 := serialize_eq_of_render 2147483647 v body hb
  have h2 := serialize_eq_of_render (-2147483648) v body hb
  have e1 : wrap32 ((2147483647 : Int) + 1) = -2147483648 := by decide
  have e2 : wrap32 ((-2147483648 : Int) + 1) = -2147483647 := by decide
  rw [e1] at h1
  rw [e2] at h2
  exact ⟨⟨_, h1⟩, ⟨_, h2⟩, by decide, by decide⟩

/-- Witness for C10 at the test value. -/
theorem counter_overflow_wraps_witness :
    wellFormed g1234 = true ∧
    ((∃ bytes, Serializer.serialize ⟨2147483647⟩ g1234 =
        (some (2147483647, bytes), ⟨-2147483648⟩)) ∧
     (∃ bytes, Serializer.serialize ⟨-2147483648⟩ g1234 =
        (some (-2147483648, bytes), ⟨-2147483647⟩)) ∧
     (-2147483648 : Int) < 0 ∧ (-2147483648 : Int) < 2147483647) :=
  ⟨by decide, counter_overflow_wraps g1234 (by decide)⟩

end Print3rs
